import Mathlib

/-!
Verification of the chip8-rust core components (`src/system.rs`, `src/clock.rs`):
the bounded Stack, the countdown Timers facility and the periodic Clock
broadcaster. Each Rust method is embedded as a pure Lean function on an
explicit state record; `&mut self` methods return the updated state next to
the Rust return value. Background-thread bodies are embedded as the state
transformation of one loop iteration (one cadence tick), and thread
interleavings are sequentialized into traces of atomic operations.
-/

set_option autoImplicit false

/-- `STACK_SIZE` constant from `system.rs` (`const STACK_SIZE: u8 = 16`). -/
def STACK_SIZE : Nat := 16

/-- `RUNLOOP_TIMER_DEFAULT` constant from `system.rs` (`const RUNLOOP_TIMER_DEFAULT: u8 = 8`). -/
def RUNLOOP_TIMER_DEFAULT : Nat := 8

/-- The `Stack` struct from `system.rs`: a fixed array of 16 `u16` cells and a
`u8` pointer. `u16`/`u8` values are embedded as `Nat`; no arithmetic in the
methods can overflow the machine widths (the guards keep `p` in `[0,16]`). -/
structure Stack where
  memory : List Nat
  p : Nat
deriving Repr, DecidableEq

/-- `Stack::new()`: all-zero memory, pointer 0. -/
def Stack.new : Stack :=
  { memory := List.replicate STACK_SIZE 0, p := 0 }

/-- `Stack::push(&mut self, value) -> Result<(), u8>`: error with the pointer
when `p >= STACK_SIZE`, else write `memory[p] = value` and increment `p`. -/
def Stack.push (s : Stack) (value : Nat) : Except Nat Unit × Stack :=
  if s.p ≥ STACK_SIZE then
    (.error s.p, s)
  else
    (.ok (), { memory := s.memory.set s.p value, p := s.p + 1 })

/-- `Stack::pop(&mut self) -> Result<u16, u8>`: error 0 when `p == 0`, error
`p` when `p >= STACK_SIZE`, else decrement `p` and return `memory[p]`. -/
def Stack.pop (s : Stack) : Except Nat Nat × Stack :=
  if s.p = 0 then
    (.error 0, s)
  else if s.p ≥ STACK_SIZE then
    (.error s.p, s)
  else
    (.ok (s.memory.getD (s.p - 1) 0), { s with p := s.p - 1 })

/-- Push a whole list of values in order, collecting each push's result. -/
def Stack.pushAll (s : Stack) (vs : List Nat) : List (Except Nat Unit) × Stack :=
  match vs with
  | [] => ([], s)
  | v :: rest =>
    let (r, s1) := s.push v
    let (rs, s2) := s1.pushAll rest
    (r :: rs, s2)

instance {ε α : Type} [DecidableEq ε] [DecidableEq α] : DecidableEq (Except ε α) := fun a b =>
  match a, b with
  | .ok x, .ok y => if h : x = y then .isTrue (by simp [h]) else .isFalse (by simp [h])
  | .error x, .error y => if h : x = y then .isTrue (by simp [h]) else .isFalse (by simp [h])
  | .ok _, .error _ => .isFalse (by simp)
  | .error _, .ok _ => .isFalse (by simp)

/-- `true` exactly on the `Ok` variant of a Rust `Result`. -/
def isOkB {ε α : Type} : Except ε α → Bool
  | .ok _ => true
  | .error _ => false

/-- The stack states reachable from `Stack::new()` by `push` and `pop` calls. -/
inductive Stack.Reachable : Stack → Prop
  | new : Stack.Reachable Stack.new
  | push (s : Stack) (v : Nat) : Stack.Reachable s → Stack.Reachable (s.push v).2
  | pop (s : Stack) : Stack.Reachable s → Stack.Reachable (s.pop).2

theorem Stack.Reachable.p_le {s : Stack} (h : s.Reachable) : s.p ≤ STACK_SIZE := by
  induction h with
  | new => simp [Stack.new]
  | push s v _ ih =>
    simp only [Stack.push, STACK_SIZE] at *
    split <;> simp <;> omega
  | pop s _ ih =>
    simp only [Stack.pop, STACK_SIZE] at *
    split
    · simpa
    · split <;> simp <;> omega

theorem Stack.Reachable.mem_length {s : Stack} (h : s.Reachable) :
    s.memory.length = STACK_SIZE := by
  induction h with
  | new => simp [Stack.new]
  | push s v _ ih =>
    simp only [Stack.push] at *
    split <;> simpa
  | pop s _ ih =>
    simp only [Stack.pop] at *
    split
    · simpa
    · split <;> simpa

/-- C1: the claim says that for every sequence of n ≤ 16 pushes on a fresh
stack followed by n pops, every pop succeeds in reverse (LIFO) order. The code
refutes the n = 16 instance: all 16 pushes succeed (`p` reaches 16), but the
very first pop then takes the `p >= STACK_SIZE` branch of `Stack::pop` and
fails with `Err(16)` instead of returning the last pushed value. -/
theorem stack_lifo_16_first_pop_fails :
    ((Stack.new.pushAll (List.range 16)).1.all fun r => r = .ok ()) = true ∧
    ((Stack.new.pushAll (List.range 16)).2).pop.1 = .error 16 := by
  constructor
  · decide
  · decide

/-- C2: the claim says pop fails (returning 0) exactly on the empty stack and
succeeds on every stack with `p > 0`. The code refutes this at the reachable
full stack: after 16 successful pushes `p = 16 > 0`, yet `Stack::pop` fails
with `Err(16)` and leaves the state unchanged. -/
theorem stack_pop_nonempty_full_fails :
    (Stack.new.pushAll (List.range 16)).2.p = 16 ∧
    0 < (Stack.new.pushAll (List.range 16)).2.p ∧
    (Stack.new.pushAll (List.range 16)).2.pop =
      (.error 16, (Stack.new.pushAll (List.range 16)).2) := by
  refine ⟨by decide, by decide, by decide⟩

/-- C3: on every reachable stack state, `push` fails returning the current
pointer exactly when the stack is full (`p = 16`); otherwise it stores the
value at the current pointer and increments the pointer. In particular the
17th push after 16 successful pushes fails and returns 16. -/
theorem stack_push_spec (s : Stack) (v : Nat) (hr : s.Reachable) :
    (s.p = 16 → s.push v = (.error 16, s)) ∧
    (s.p ≠ 16 → s.push v = (.ok (), { memory := s.memory.set s.p v, p := s.p + 1 })) ∧
    (isOkB (s.push v).1 = false → s.p = 16) ∧
    (((Stack.new.pushAll (List.range 16)).1.all fun r => r = .ok ()) = true ∧
      ((Stack.new.pushAll (List.range 16)).2.push 99).1 = .error 16) := by
  have hp := hr.p_le
  simp only [STACK_SIZE] at hp
  refine ⟨?_, ?_, ?_, by decide, by decide⟩
  · intro h
    simp [Stack.push, STACK_SIZE, h]
  · intro h
    have hlt : s.p < 16 := by omega
    simp [Stack.push, STACK_SIZE, Nat.not_le.mpr hlt]
  · intro h
    simp only [Stack.push, STACK_SIZE] at h
    by_contra hne
    have hlt : s.p < 16 := by omega
    rw [if_neg (Nat.not_le.mpr hlt)] at h
    simp [isOkB] at h

/-- Witness for C3 at two concrete reachable states: the fresh stack (push
succeeds and appends) and the full stack after 16 pushes (push fails with 16). -/
theorem stack_push_spec_witness :
    Stack.new.push 7 = (.ok (), { memory := (List.replicate 16 0).set 0 7, p := 1 }) ∧
    ((Stack.new.pushAll (List.range 16)).2.push 99).1 = .error 16 := by
  exact ⟨(stack_push_spec Stack.new 7 Stack.Reachable.new).2.1 (by decide),
    (stack_push_spec Stack.new 0 Stack.Reachable.new).2.2.2.2⟩

/-- C10: frame conditions of the stack operations. A successful push changes
only the cell at the pre-call pointer (and the pointer); a successful pop
changes only the pointer and leaves the whole memory array, the popped cell
included, untouched; every failing push or pop leaves the state unchanged. -/
theorem stack_frame (s : Stack) (v : Nat) :
    ((s.push v).1 = .ok () →
      (s.push v).2.p = s.p + 1 ∧
      (s.push v).2.memory = s.memory.set s.p v ∧
      ∀ i, i ≠ s.p → (s.push v).2.memory[i]? = s.memory[i]?) ∧
    (isOkB (s.push v).1 = false → (s.push v).2 = s) ∧
    (isOkB (s.pop).1 = true → (s.pop).2.memory = s.memory ∧ (s.pop).2.p = s.p - 1) ∧
    (isOkB (s.pop).1 = false → (s.pop).2 = s) := by
  refine ⟨?_, ?_, ?_, ?_⟩
  · intro h
    by_cases hfull : s.p ≥ STACK_SIZE
    · simp only [Stack.push] at h
      rw [if_pos hfull] at h
      exact absurd h (by simp)
    · simp only [Stack.push]
      rw [if_neg hfull]
      refine ⟨rfl, rfl, fun i hi => ?_⟩
      exact List.getElem?_set_ne (Ne.symm hi)
  · intro h
    by_cases hfull : s.p ≥ STACK_SIZE
    · simp only [Stack.push]
      rw [if_pos hfull]
    · simp only [Stack.push] at h
      rw [if_neg hfull] at h
      simp [isOkB] at h
  · intro h
    by_cases hz : s.p = 0
    · simp only [Stack.pop] at h
      rw [if_pos hz] at h
      simp [isOkB] at h
    · by_cases hfull : s.p ≥ STACK_SIZE
      · simp only [Stack.pop] at h
        rw [if_neg hz, if_pos hfull] at h
        simp [isOkB] at h
      · simp only [Stack.pop]
        rw [if_neg hz, if_neg hfull]
        exact ⟨rfl, rfl⟩
  · intro h
    by_cases hz : s.p = 0
    · simp only [Stack.pop]
      rw [if_pos hz]
    · by_cases hfull : s.p ≥ STACK_SIZE
      · simp only [Stack.pop]
        rw [if_neg hz, if_pos hfull]
      · simp only [Stack.pop] at h
        rw [if_neg hz, if_neg hfull] at h
        simp [isOkB] at h

/-- Witness for C10 at concrete states: a successful push on the fresh stack,
a failing push on the full stack, a successful pop after one push, and a
failing pop on the empty stack. -/
theorem stack_frame_witness :
    (Stack.new.push 7).2.p = Stack.new.p + 1 ∧
    ((Stack.new.pushAll (List.range 16)).2.push 5).2 = (Stack.new.pushAll (List.range 16)).2 ∧
    ((Stack.new.push 3).2.pop).2.memory = (Stack.new.push 3).2.memory ∧
    (Stack.new.pop).2 = Stack.new := by
  refine ⟨((stack_frame Stack.new 7).1 (by decide)).1,
    (stack_frame (Stack.new.pushAll (List.range 16)).2 5).2.1 (by decide),
    ((stack_frame (Stack.new.push 3).2 0).2.2.1 (by decide)).1,
    (stack_frame Stack.new 0).2.2.2 (by decide)⟩

/-- The `Timers` struct from `system.rs`: two `AtomicU8` counters, an optional
background-thread handle and a stop flag. The `u8` counters are embedded as
`Nat`; every value stored into them comes from a `u8` argument, so setters
carry the side condition `v ≤ 255`. -/
structure Timers where
  delay_timer : Nat
  sound_timer : Nat
  timer_handle : Option Unit
  stop_flag : Bool
deriving Repr, DecidableEq

/-- `Timers::new()`: both counters at `RUNLOOP_TIMER_DEFAULT` (8), no thread,
stop flag clear. -/
def Timers.new : Timers :=
  { delay_timer := RUNLOOP_TIMER_DEFAULT, sound_timer := RUNLOOP_TIMER_DEFAULT,
    timer_handle := none, stop_flag := false }

/-- One cadence iteration of the background thread spawned by `Timers::start`:
each counter is `fetch_sub(1)`ed exactly when its loaded value is nonzero, so
it saturates at 0. The load/sub pair is modelled as one atomic step. -/
def Timers.tick (t : Timers) : Timers :=
  { t with
    delay_timer := if t.delay_timer > 0 then t.delay_timer - 1 else t.delay_timer,
    sound_timer := if t.sound_timer > 0 then t.sound_timer - 1 else t.sound_timer }

/-- `Timers::start`: records the spawned thread's handle. -/
def Timers.start (t : Timers) : Timers :=
  { t with timer_handle := some () }

/-- `Timers::teardown`, parameterized by the outcome of the `join` on the
background thread (already mapped to `Err("thread panicked")` on panic): sets
the stop flag, then takes and joins the handle when one is present, and
returns `Ok(())` without joining otherwise. -/
def Timers.teardownWith (t : Timers) (join : Except String Unit) :
    Except String Unit × Timers :=
  match t.timer_handle with
  | some _ => (join, { t with stop_flag := true, timer_handle := none })
  | none => (.ok (), { t with stop_flag := true, timer_handle := none })

/-- `Timers::teardown` as it behaves for the modelled thread body, which is
total and hence cannot panic: the join succeeds. -/
def Timers.teardown (t : Timers) : Except String Unit × Timers :=
  t.teardownWith (.ok ())

/-- `Timers::retrieve_delay_timer`: atomic load of the delay counter. -/
def Timers.retrieve_delay_timer (t : Timers) : Nat :=
  t.delay_timer

/-- `Timers::set_delay_timer`: atomic store of a `u8` into the delay counter. -/
def Timers.set_delay_timer (t : Timers) (value : Nat) : Timers :=
  { t with delay_timer := value }

/-- `Timers::set_sound_timer`: atomic store of a `u8` into the sound counter. -/
def Timers.set_sound_timer (t : Timers) (value : Nat) : Timers :=
  { t with sound_timer := value }

/-- `n` successive cadence iterations of the timer thread. -/
def Timers.ticks (t : Timers) : Nat → Timers
  | 0 => t
  | n + 1 => t.tick.ticks n

/-- Timer states reachable from `Timers::new()` by any interleaving of API
calls and cadence ticks; setter arguments are `u8`, hence `≤ 255`. -/
inductive Timers.Reachable : Timers → Prop
  | new : Timers.Reachable Timers.new
  | tick {t} : Timers.Reachable t → Timers.Reachable t.tick
  | start {t} : Timers.Reachable t → Timers.Reachable t.start
  | teardown {t} : Timers.Reachable t → Timers.Reachable (t.teardown).2
  | set_delay {t v} : Timers.Reachable t → v ≤ 255 → Timers.Reachable (t.set_delay_timer v)
  | set_sound {t v} : Timers.Reachable t → v ≤ 255 → Timers.Reachable (t.set_sound_timer v)

theorem Timers.Reachable.bounds {t : Timers} (h : t.Reachable) :
    t.delay_timer ≤ 255 ∧ t.sound_timer ≤ 255 := by
  induction h with
  | new => simp [Timers.new, RUNLOOP_TIMER_DEFAULT]
  | tick t ih =>
    simp only [Timers.tick] at *
    constructor
    · split <;> omega
    · split <;> omega
  | start t ih => simpa [Timers.start] using ih
  | teardown t ih =>
    simp only [Timers.teardown, Timers.teardownWith]
    split <;> simpa using ih
  | set_delay t hv ih => simp only [Timers.set_delay_timer]; exact ⟨hv, ih.2⟩
  | set_sound t hv ih => simp only [Timers.set_sound_timer]; exact ⟨ih.1, hv⟩

theorem Timers.tick_delay (t : Timers) : t.tick.delay_timer = t.delay_timer - 1 := by
  simp only [Timers.tick]
  split <;> omega

theorem Timers.tick_sound (t : Timers) : t.tick.sound_timer = t.sound_timer - 1 := by
  simp only [Timers.tick]
  split <;> omega

theorem Timers.ticks_delay (n : Nat) : ∀ t : Timers, (t.ticks n).delay_timer = t.delay_timer - n := by
  induction n with
  | zero => intro t; simp [Timers.ticks]
  | succ n ih =>
    intro t
    rw [Timers.ticks, ih, Timers.tick_delay]
    omega

/-- C4: on every reachable timer state both counters lie in [0, 255], and a
cadence tick decrements a counter by 1 when it is nonzero and leaves it at 0
when it is zero — a saturating decrement that never wraps. -/
theorem timers_counters_bounded_saturating (t : Timers) (h : t.Reachable) :
    t.delay_timer ≤ 255 ∧ t.sound_timer ≤ 255 ∧
    (0 < t.delay_timer → t.tick.delay_timer = t.delay_timer - 1) ∧
    (t.delay_timer = 0 → t.tick.delay_timer = 0) ∧
    (0 < t.sound_timer → t.tick.sound_timer = t.sound_timer - 1) ∧
    (t.sound_timer = 0 → t.tick.sound_timer = 0) := by
  refine ⟨h.bounds.1, h.bounds.2, fun _ => t.tick_delay, fun hz => ?_, fun _ => t.tick_sound,
    fun hz => ?_⟩
  · rw [t.tick_delay, hz]
  · rw [t.tick_sound, hz]

/-- Witness for C4 at concrete reachable states: the fresh timer (counters at
8) and a timer whose delay counter was set to 0. -/
theorem timers_counters_witness :
    Timers.new.delay_timer ≤ 255 ∧
    Timers.new.tick.delay_timer = Timers.new.delay_timer - 1 ∧
    (Timers.new.set_delay_timer 0).tick.delay_timer = 0 :=
  ⟨(timers_counters_bounded_saturating Timers.new Timers.Reachable.new).1,
    (timers_counters_bounded_saturating Timers.new Timers.Reachable.new).2.2.1 (by decide),
    (timers_counters_bounded_saturating (Timers.new.set_delay_timer 0)
      (Timers.Reachable.set_delay Timers.Reachable.new (by omega))).2.2.2.1 rfl⟩

/-- C5: a value `v` stored into a counter is in place before the next cadence
tick: after `set` and then one tick, the counter reads `v` decremented
(saturating), independently of the value the counter held before the store. -/
theorem timers_set_then_tick (t : Timers) (v : Nat) (hv : v ≤ 255) :
    (t.set_delay_timer v).delay_timer = v ∧
    ((t.set_delay_timer v).tick).retrieve_delay_timer = v - 1 ∧
    (t.set_sound_timer v).sound_timer = v ∧
    ((t.set_sound_timer v).tick).sound_timer = v - 1 := by
  refine ⟨rfl, ?_, rfl, ?_⟩
  · rw [Timers.retrieve_delay_timer, Timers.tick_delay, Timers.set_delay_timer]
  · rw [Timers.tick_sound, Timers.set_sound_timer]

/-- Witness for C5 at `v = 200` on the fresh timer. -/
theorem timers_set_then_tick_witness :
    ((Timers.new.set_delay_timer 200).tick).retrieve_delay_timer = 200 - 1 :=
  (timers_set_then_tick Timers.new 200 (by omega)).2.1

/-- C6: starting from a delay counter set to `C` with `0 < C ≤ 255`, after
exactly `C` cadence ticks the delay counter reads 0, and every further tick
leaves it at 0. -/
theorem timers_countdown_reaches_zero (t : Timers) (C : Nat) (h0 : 0 < C) (h255 : C ≤ 255) :
    ((t.set_delay_timer C).ticks C).retrieve_delay_timer = 0 ∧
    ∀ k, (((t.set_delay_timer C).ticks C).ticks k).retrieve_delay_timer = 0 := by
  constructor
  · rw [Timers.retrieve_delay_timer, Timers.ticks_delay]
    simp [Timers.set_delay_timer]
  · intro k
    rw [Timers.retrieve_delay_timer, Timers.ticks_delay, Timers.ticks_delay]
    simp [Timers.set_delay_timer]

/-- Witness for C6 at `C = 2` (and 3 extra ticks) on the fresh timer. -/
theorem timers_countdown_witness :
    ((Timers.new.set_delay_timer 2).ticks 2).retrieve_delay_timer = 0 ∧
    (((Timers.new.set_delay_timer 2).ticks 2).ticks 3).retrieve_delay_timer = 0 :=
  ⟨(timers_countdown_reaches_zero Timers.new 2 (by omega) (by omega)).1,
    (timers_countdown_reaches_zero Timers.new 2 (by omega) (by omega)).2 3⟩

/-- A listener channel of the Clock, seen through its `Sender<()>` half: the
queue of ticks sent and not yet consumed, and whether the consumer's
`Receiver` half is still alive. -/
structure Listener where
  connected : Bool
  received : List Unit
deriving Repr, DecidableEq

/-- A freshly created channel pair: consumer alive, nothing sent yet. -/
def Listener.new : Listener :=
  { connected := true, received := [] }

/-- `Sender::send(())` as used in the broadcast loop: appends to the queue
when the receiver is alive; the `Err` of a dropped receiver is discarded by
the loop's `let _ =`, so the listener is simply left unchanged and no error
escapes. -/
def Listener.sendTick (l : Listener) : Listener :=
  if l.connected then { l with received := l.received ++ [()] } else l

/-- The `Clock` struct from `clock.rs`: a stop flag, an optional thread
handle, the cadence interval (in microseconds) and the retained `Sender`
halves of all registered listeners. -/
structure Clock where
  stop_flag : Bool
  timer_handle : Option Unit
  interval : Nat
  listeners : List Listener
deriving Repr, DecidableEq

/-- `Clock::new(interval)`: flag clear, no thread, no listeners. -/
def Clock.new (interval : Nat) : Clock :=
  { stop_flag := false, timer_handle := none, interval := interval, listeners := [] }

/-- `Clock::start`: records the spawned thread's handle. The thread body
clones the listener list, which is frozen afterwards because
`become_listener` refuses to run once the handle is present. -/
def Clock.start (c : Clock) : Clock :=
  { c with timer_handle := some () }

/-- One cadence iteration of the thread spawned by `Clock::start`: send one
tick to every retained listener, in registration order. -/
def Clock.tick (c : Clock) : Clock :=
  { c with listeners := c.listeners.map Listener.sendTick }

/-- `n` successive cadence iterations of the broadcast thread. -/
def Clock.ticks (c : Clock) : Nat → Clock
  | 0 => c
  | n + 1 => c.tick.ticks n

/-- `Clock::teardown`, parameterized by the outcome of the `join` (already
mapped to `Err("thread panicked")` on panic): sets the stop flag, drains and
drops every retained `Sender`, then joins the thread when a handle is
present, and returns `Ok(())` without joining otherwise. -/
def Clock.teardownWith (c : Clock) (join : Except String Unit) :
    Except String Unit × Clock :=
  match c.timer_handle with
  | some _ => (join, { c with stop_flag := true, listeners := [], timer_handle := none })
  | none => (.ok (), { c with stop_flag := true, listeners := [], timer_handle := none })

/-- `Clock::teardown` as it behaves for the modelled thread body, which is
total and hence cannot panic: the join succeeds. -/
def Clock.teardown (c : Clock) : Except String Unit × Clock :=
  c.teardownWith (.ok ())

/-- `Clock::become_listener`: refused once the thread handle is present; with
no handle and the stop flag clear, a fresh channel pair is created, its
`Sender` half retained, and its `Receiver` half returned (modelled by the
index of the new listener); with the stop flag set it reports termination. -/
def Clock.become_listener (c : Clock) : Except String Nat × Clock :=
  if c.timer_handle.isSome then
    (.error "cannot become listener after clock has started", c)
  else if c.stop_flag = false then
    (.ok c.listeners.length, { c with listeners := c.listeners ++ [Listener.new] })
  else
    (.error "clock has been terminated", c)

/-- Clock states reachable under the documented one-shot lifecycle, with
ghost history flags: `st` records whether `start` was ever called, `td`
whether `teardown` was. `start` is one-shot (a second `start`, or a `start`
after `teardown`, is declared unsupported), and cadence ticks happen between
`start` and `teardown`. -/
inductive Clock.Reach : Clock → Bool → Bool → Prop
  | new (i : Nat) : Clock.Reach (Clock.new i) false false
  | listener {c st td} : Clock.Reach c st td → Clock.Reach (c.become_listener).2 st td
  | start {c} : Clock.Reach c false false → Clock.Reach c.start true false
  | tick {c} : Clock.Reach c true false → Clock.Reach c.tick true false
  | teardown {c st td} : Clock.Reach c st td → Clock.Reach (c.teardown).2 st true

theorem Clock.Reach.char {c : Clock} {st td : Bool} (h : Clock.Reach c st td) :
    c.timer_handle.isSome = (st && !td) ∧ c.stop_flag = td := by
  induction h with
  | new i => simp [Clock.new]
  | listener h ih =>
    simp only [Clock.become_listener]
    split
    · exact ih
    · split <;> exact ih
  | start h ih => simp [Clock.start, ih.2]
  | tick h ih => simpa [Clock.tick] using ih
  | teardown h ih =>
    simp only [Clock.teardown, Clock.teardownWith]
    split <;> simp

/-- Counterexample to C7 as stated: after `start` followed by `teardown` the
background thread has been spawned, yet `become_listener` reports the
terminated error, not the already-started error (the handle was taken by the
join, so the started check no longer fires). -/
theorem clock_become_listener_spawned_not_already_started :
    Clock.Reach (((Clock.new 16667).start).teardown).2 true true ∧
    ((((Clock.new 16667).start).teardown).2.become_listener).1 =
      .error "clock has been terminated" ∧
    (Except.error "clock has been terminated" : Except String Nat) ≠
      .error "cannot become listener after clock has started" :=
  ⟨Clock.Reach.teardown (Clock.Reach.start (Clock.Reach.new 16667)), rfl, by decide⟩

/-- C7 amended: on every state reachable under the one-shot lifecycle,
`become_listener` succeeds — returning the receiver half of a freshly
appended channel — exactly when the clock has never been started and never
been torn down; it fails with the already-started error whenever the thread
has been spawned and teardown has not yet occurred; and it fails with the
terminated error whenever teardown has already occurred. -/
theorem clock_become_listener_spec (c : Clock) (st td : Bool) (h : Clock.Reach c st td) :
    (isOkB (c.become_listener).1 = true ↔ st = false ∧ td = false) ∧
    (st = false ∧ td = false →
      c.become_listener =
        (.ok c.listeners.length, { c with listeners := c.listeners ++ [Listener.new] })) ∧
    (st = true ∧ td = false →
      (c.become_listener).1 = .error "cannot become listener after clock has started") ∧
    (td = true → (c.become_listener).1 = .error "clock has been terminated") := by
  obtain ⟨hh, hf⟩ := h.char
  cases st <;> cases td <;>
    simp_all [Clock.become_listener, isOkB]

/-- Witness for C7 at three concrete reachable states: the fresh clock
(success), the started clock (already-started error) and the torn-down clock
(terminated error). -/
theorem clock_become_listener_witness :
    isOkB (((Clock.new 16667).become_listener)).1 = true ∧
    ((((Clock.new 16667).start).become_listener)).1 =
      .error "cannot become listener after clock has started" ∧
    ((((Clock.new 16667).teardown).2.become_listener)).1 =
      .error "clock has been terminated" :=
  ⟨(clock_become_listener_spec _ false false (Clock.Reach.new 16667)).1.mpr ⟨rfl, rfl⟩,
    (clock_become_listener_spec _ true false
      (Clock.Reach.start (Clock.Reach.new 16667))).2.2.1 ⟨rfl, rfl⟩,
    (clock_become_listener_spec _ false true
      (Clock.Reach.teardown (Clock.Reach.new 16667))).2.2.2 rfl⟩

/-- C8: `teardown` is idempotent for both facilities. On a never-started
Clock or Timers it succeeds (there is no thread to join), and a second
`teardown` after any first one also succeeds — whatever the first join
returned — because the first call already took the handle. -/
theorem teardown_idempotent :
    (∀ i : Nat, ((Clock.new i).teardown).1 = .ok ()) ∧
    (∀ (c : Clock) (j : Except String Unit), (((c.teardownWith j).2).teardown).1 = .ok ()) ∧
    ((Timers.new.teardown).1 = .ok ()) ∧
    (∀ (t : Timers) (j : Except String Unit), (((t.teardownWith j).2).teardown).1 = .ok ()) := by
  refine ⟨fun i => rfl, fun c j => ?_, rfl, fun t j => ?_⟩
  · cases hc : c.timer_handle <;>
      simp [Clock.teardown, Clock.teardownWith, hc]
  · cases ht : t.timer_handle <;>
      simp [Timers.teardown, Timers.teardownWith, ht]

theorem Clock.ticks_uniform (n : Nat) : ∀ (c : Clock) (m : Nat),
    (∀ l ∈ c.listeners, l.connected = true ∧ l.received = List.replicate m ()) →
    ∀ l ∈ (c.ticks n).listeners,
      l.connected = true ∧ l.received = List.replicate (m + n) () := by
  induction n with
  | zero =>
    intro c m h l hl
    simpa using h l (by simpa [Clock.ticks] using hl)
  | succ n ih =>
    intro c m h
    have h1 : ∀ l ∈ c.tick.listeners,
        l.connected = true ∧ l.received = List.replicate (m + 1) () := by
      intro l hl
      simp only [Clock.tick] at hl
      obtain ⟨l0, hl0, rfl⟩ := List.mem_map.mp hl
      obtain ⟨hc, hr⟩ := h l0 hl0
      simp [Listener.sendTick, hc, hr, List.replicate_succ']
    intro l hl
    have h2 := ih c.tick (m + 1) h1 l (by simpa [Clock.ticks] using hl)
    refine ⟨h2.1, ?_⟩
    rw [h2.2]
    congr 1
    omega

/-- C9: each cadence tick sends one tick to every retained listener whose
receiver is alive, so all listeners registered before `start` observe, after
any number of ticks, exactly the same sequence of tick events; a send to a
listener whose receiver half was dropped leaves it unchanged and surfaces no
error. -/
theorem clock_broadcast_spec (c : Clock) (n : Nat)
    (h : ∀ l ∈ c.listeners, l.connected = true ∧ l.received = []) :
    (∀ l ∈ c.listeners, l.connected = true →
      (Listener.sendTick l).received = l.received ++ [()]) ∧
    (∀ l ∈ (c.ticks n).listeners, l.received = List.replicate n ()) ∧
    (∀ l : Listener, l.connected = false → Listener.sendTick l = l) := by
  refine ⟨fun l _ hc => by simp [Listener.sendTick, hc], fun l hl => ?_,
    fun l hc => by simp [Listener.sendTick, hc]⟩
  have := Clock.ticks_uniform n c 0 (by simpa using h) l hl
  simpa using this.2

/-- A clock with two listeners registered before start. -/
def clockWithTwoListeners : Clock :=
  ((((Clock.new 16667).become_listener).2).become_listener).2

/-- Witness for C9: on a clock with two registered listeners, after 2 cadence
ticks the first listener has observed exactly the sequence of 2 ticks. -/
theorem clock_broadcast_witness :
    ((clockWithTwoListeners.ticks 2).listeners.getD 0 Listener.new).received =
      List.replicate 2 () :=
  (clock_broadcast_spec clockWithTwoListeners 2 (by decide)).2.1 _ (by decide)
